import Mathlib

/-!
Verification development for the LED battery indicator (`batt3.py`).

The file embeds the frame-synthesis core of the program:
the fill geometry, the frame renderer `create_battery_frame`, the Gaussian
attenuation `compute_multiplier`, the pulse position/fade state machine of the
main loop, and the column wire encoder `send_column` / `send_flush`.

Numbers: Python floats are modelled as exact numbers — rationals (`ℚ`) for the
fill geometry and the state machine, reals (`ℝ`) for the Gaussian overlay
(which needs `Real.exp`).  Python's `round` (banker's rounding: nearest
integer, ties to even) is modelled explicitly.
-/

namespace Batt3

/-! ## Configuration constants (`batt3.py`, lines 10-20) -/

def WIDTH : ℕ := 9

def HEIGHT : ℕ := 34

def MAX_BRIGHT : ℤ := 255

noncomputable def MIN_M : ℝ := 10 / 255

def SIGMA : ℝ := 2

def STEP_SCALE : ℚ := 100

def FADE_SPEED : ℚ := 1 / 100

def PULSE_SPEED_MODIFIER : ℚ := 2

def CMD_STAGE_COL : ℤ := 0x07

def CMD_FLUSH_COLS : ℤ := 0x08

/-! ## Python rounding

`int(round(x))` in Python 3: round to the nearest integer, ties to the even
integer (`int` on the resulting integral value is the identity). -/

/-- Python 3 `round` on a rational: nearest integer, ties to even. -/
def pyround (x : ℚ) : ℤ :=
  if x - ⌊x⌋ < 1 / 2 then ⌊x⌋
  else if 1 / 2 < x - ⌊x⌋ then ⌊x⌋ + 1
  else if 2 ∣ ⌊x⌋ then ⌊x⌋ else ⌊x⌋ + 1

/-- Python 3 `round` on a real: nearest integer, ties to even.  Used where the
code multiplies a cell by the (transcendental) Gaussian multiplier. -/
noncomputable def pyroundR (x : ℝ) : ℤ :=
  if x - ⌊x⌋ < 1 / 2 then ⌊x⌋
  else if 1 / 2 < x - ⌊x⌋ then ⌊x⌋ + 1
  else if 2 ∣ ⌊x⌋ then ⌊x⌋ else ⌊x⌋ + 1

/-! ## Fill geometry (`create_battery_frame`, lines 46-49, and main loop 126-128) -/

/-- `fill_level = (p / 100.0) * 30` (line 46 and line 126). -/
def fill_level (p : ℚ) : ℚ := p / 100 * 30

/-- `full_rows = math.floor(fill_level)` (line 47 and line 127). -/
def full_rows (p : ℚ) : ℤ := ⌊fill_level p⌋

/-- `partial_fraction = fill_level - full_rows` (line 48). -/
def partial_fraction (p : ℚ) : ℚ := fill_level p - full_rows p

/-- `partial_row = 32 - full_rows if full_rows < 30 else None` (line 49). -/
def partial_row (p : ℚ) : Option ℤ :=
  if full_rows p < 30 then some (32 - full_rows p) else none

/-- `top_fill = 32 - full_rows` (line 128). -/
def top_fill (p : ℚ) : ℤ := 32 - full_rows p

/-! ## Frame renderer (`create_battery_frame`, lines 44-85) -/

/-- The center-out fade factor of the partial row (lines 66-71): the
`if col == 4 / elif col in (3, 5) / elif col in (2, 6)` chain.  Only queried
for `col` in 2..6. -/
def fade_factor (p : ℚ) (col : ℕ) : ℚ :=
  if col = 4 then min 1 (partial_fraction p / (33 / 100))
  else if col = 3 ∨ col = 5 then max 0 ((partial_fraction p - 33 / 100) / (33 / 100))
  else max 0 ((partial_fraction p - 66 / 100) / (34 / 100))

/-- Value of cell `(col, row)` after the border / fill writes of
`create_battery_frame` (lines 51-76) and before the pulse overlay.  The write
sequence touches each cell at most once beyond the initial `0` (the rows loop
covers rows 2..32 only; rows 0, 1 and 33 are set outside it), so its net
effect is this per-cell function. -/
def base_cell (p : ℚ) (col row : ℕ) : ℤ :=
  if row = 0 then (if 3 ≤ col ∧ col ≤ 5 then MAX_BRIGHT else 0)
  else if row = 1 then
    (if col = 0 ∨ col = 1 ∨ col = 2 ∨ col = 6 ∨ col = 7 ∨ col = 8 then MAX_BRIGHT else 0)
  else if row = 33 then MAX_BRIGHT
  else if col = 0 ∨ col = 8 then MAX_BRIGHT
  else if 2 ≤ col ∧ col ≤ 6 then
    (if (row : ℤ) > 32 - full_rows p then MAX_BRIGHT
     else if partial_row p = some (row : ℤ) then pyround ((MAX_BRIGHT : ℚ) * fade_factor p col)
     else 0)
  else 0

/-- `compute_multiplier` (lines 38-42). -/
noncomputable def compute_multiplier (r : ℝ) (c : Option ℝ) (sigma min_m : ℝ) : ℝ :=
  match c with
  | none => 1
  | some c =>
      let dist := (r - c) / sigma
      1 - (1 - min_m) * Real.exp (-dist ^ 2)

/-- `create_battery_frame(p, c, pulse_fade)` (lines 44-85).  The base columns
are built first; when `c` is not `None` the pulse overlay rewrites each cell of
columns 2..6 (`range(2, 7)`), rows 2..32 (`range(2, 33)`) to
`int(round(cell * compute_multiplier(row, c, SIGMA, MIN_M)))`.  The
`pulse_fade` argument is accepted but never read by the function body. -/
noncomputable def create_battery_frame (p : ℚ) (c : Option ℝ) (pulse_fade : ℝ) :
    List (List ℤ) :=
  match c with
  | none =>
      (List.range WIDTH).map (fun col => (List.range HEIGHT).map (fun row => base_cell p col row))
  | some cv =>
      (List.range WIDTH).map (fun col => (List.range HEIGHT).map (fun row =>
        if 2 ≤ col ∧ col ≤ 6 ∧ 2 ≤ row ∧ row ≤ 32 then
          pyroundR ((base_cell p col row : ℝ) * compute_multiplier (row : ℝ) (some cv) SIGMA MIN_M)
        else base_cell p col row))

/-- Cell access in a grid, `columns[col][row]`. -/
def cellAt (g : List (List ℤ)) (col row : ℕ) : ℤ := (g.getD col []).getD row 0

/-! ## Column encoder (`send_column` lines 25-32, `send_flush` lines 34-36)

The serial write is modelled by returning the byte list that reaches
`ser.write`; the `print` diagnostic is modelled by counting how many values
fell outside 0..255 (the loop clamps and continues — it never raises). -/

/-- The test `val < 0 or val > 255` of line 28. -/
def out_of_range (val : ℤ) : Bool := decide (val < 0 ∨ 255 < val)

/-- Body of the `for val in values` loop of `send_column` (lines 27-31):
append the (clamped) value, counting a diagnostic when it was out of range. -/
def stage_step (acc : List ℤ × ℕ) (val : ℤ) : List ℤ × ℕ :=
  if val < 0 ∨ 255 < val then (acc.1 ++ [max 0 (min 255 val)], acc.2 + 1)
  else (acc.1 ++ [val], acc.2)

/-- `send_column(column_id, values)` (lines 25-32): the staged bytes together
with the number of out-of-range diagnostics. -/
def send_column (column_id : ℤ) (values : List ℤ) : List ℤ × ℕ :=
  values.foldl stage_step ([0x32, 0xAC, CMD_STAGE_COL, column_id], 0)

/-- `send_flush()` (lines 34-36). -/
def send_flush : List ℤ := [0x32, 0xAC, CMD_FLUSH_COLS]

/-- The per-tick emission (lines 150-152): stage every column 0..WIDTH-1 in
order, then flush. -/
def emit_frame (cols : List (List ℤ)) : List ℤ :=
  (((List.range WIDTH).map (fun (col : ℕ) => (send_column (col : ℤ) (cols.getD col [])).1)).flatten)
    ++ send_flush

/-! ## Pulse state machine (main loop, lines 121-147) -/

inductive Mode
  | charge
  | discharge
  | idle
deriving DecidableEq

/-- `mode = "charge" if charge_watts > 0 else "discharge" if discharge_watts > 0
else "idle"` (line 121). -/
structure TickInput where
  p : ℚ
  charge_watts : ℚ
  discharge_watts : ℚ
deriving DecidableEq

def mode (i : TickInput) : Mode :=
  if 0 < i.charge_watts then Mode.charge
  else if 0 < i.discharge_watts then Mode.discharge
  else Mode.idle

/-- The state carried across ticks: `pulse_pos` (initially `None`) and
`pulse_fade` (initially `0.0`), lines 90-91. -/
structure PulseState where
  pos : Option ℚ
  fade : ℚ
deriving DecidableEq

def initState : PulseState := ⟨none, 0⟩

/-- Fade ramp of lines 122-124: step toward the target by `FADE_SPEED`, then
clamp to `[0, 1]`. -/
def update_fade (fade target : ℚ) : ℚ :=
  max 0 (min 1 (fade + (if fade < target then FADE_SPEED
                        else if target < fade then -FADE_SPEED else 0)))

/-- One iteration of the pulse update (lines 121-147): returns the new carried
state and the center `c` handed to `create_battery_frame`.  The code guards
`mode == "charge" and charge_watts > 0` (and the analogue for discharge); the
second conjunct is implied by the first, so the guard is the mode test. -/
def tick (s : PulseState) (i : TickInput) : PulseState × Option ℚ :=
  let target : ℚ := if mode i ≠ Mode.idle then 1 else 0
  let fade := update_fade s.fade target
  if mode i = Mode.charge then
    let pos1 : ℚ :=
      match s.pos with
      | none => 33
      | some q => q - i.charge_watts / STEP_SCALE * PULSE_SPEED_MODIFIER
    let pos2 : ℚ := if pos1 < (top_fill i.p : ℚ) then 33 else pos1
    (⟨some pos2, fade⟩, if 0 < fade then some pos2 else none)
  else if mode i = Mode.discharge then
    let pos1 : ℚ :=
      match s.pos with
      | none => (top_fill i.p : ℚ)
      | some q => q + i.discharge_watts / STEP_SCALE * PULSE_SPEED_MODIFIER
    let pos2 : ℚ := if (33 : ℚ) < pos1 then (top_fill i.p : ℚ) else pos1
    (⟨some pos2, fade⟩, if 0 < fade then some pos2 else none)
  else
    (⟨s.pos, fade⟩, none)

/-- The carried state after a sequence of ticks, starting from process start
(`pulse_pos = None`, `pulse_fade = 0.0`). -/
def run (l : List TickInput) : PulseState :=
  l.foldl (fun s i => (tick s i).1) initState

/-! ## Helper lemmas -/

lemma tick_idle (s : PulseState) (i : TickInput) (h : mode i = Mode.idle) :
    tick s i = (⟨s.pos, update_fade s.fade 0⟩, none) := by
  simp [tick, h]

lemma tick_charge (s : PulseState) (i : TickInput) (h : mode i = Mode.charge) :
    tick s i =
      (let pos1 : ℚ :=
        match s.pos with
        | none => 33
        | some q => q - i.charge_watts / STEP_SCALE * PULSE_SPEED_MODIFIER
      let pos2 : ℚ := if pos1 < (top_fill i.p : ℚ) then 33 else pos1
      let fade := update_fade s.fade 1
      (⟨some pos2, fade⟩, if 0 < fade then some pos2 else none)) := by
  simp [tick, h]

lemma tick_discharge (s : PulseState) (i : TickInput) (h : mode i = Mode.discharge) :
    tick s i =
      (let pos1 : ℚ :=
        match s.pos with
        | none => (top_fill i.p : ℚ)
        | some q => q + i.discharge_watts / STEP_SCALE * PULSE_SPEED_MODIFIER
      let pos2 : ℚ := if (33 : ℚ) < pos1 then (top_fill i.p : ℚ) else pos1
      let fade := update_fade s.fade 1
      (⟨some pos2, fade⟩, if 0 < fade then some pos2 else none)) := by
  simp [tick, h]

lemma mode_charge_pos {i : TickInput} (h : mode i = Mode.charge) : 0 < i.charge_watts := by
  by_contra hc
  simp only [mode, if_neg hc] at h
  split_ifs at h <;> simp_all

lemma full_rows_nonneg {p : ℚ} (hp : 0 ≤ p) : 0 ≤ full_rows p := by
  refine Int.floor_nonneg.mpr ?_
  unfold fill_level
  positivity

lemma top_fill_le_32 {p : ℚ} (hp : 0 ≤ p) : top_fill p ≤ 32 := by
  have h := full_rows_nonneg hp
  unfold top_fill
  omega

/-- A position carried in the state never exceeds 33 once the per-tick inputs
have nonnegative percentages: one step preserves the bound. -/
lemma tick_pos_le (s : PulseState) (i : TickInput) (hp : 0 ≤ i.p)
    (h : ∀ q, s.pos = some q → q ≤ 33) :
    ∀ q, ((tick s i).1).pos = some q → q ≤ 33 := by
  have htf : (top_fill i.p : ℚ) ≤ 32 := by exact_mod_cast top_fill_le_32 hp
  by_cases hc : mode i = Mode.charge
  · rw [tick_charge s i hc]
    rcases hs : s.pos with _ | q0
    · simp only [hs]
      intro q hq
      split_ifs at hq <;> simp_all
    · have hq0 : q0 ≤ 33 := h q0 hs
      have hcw : 0 < i.charge_watts := mode_charge_pos hc
      have hstep : 0 < i.charge_watts / STEP_SCALE * PULSE_SPEED_MODIFIER := by
        have h1 : 0 < i.charge_watts / STEP_SCALE := by
          apply div_pos hcw
          norm_num [STEP_SCALE]
        have h2 : (0 : ℚ) < PULSE_SPEED_MODIFIER := by norm_num [PULSE_SPEED_MODIFIER]
        exact mul_pos h1 h2
      simp only [hs]
      intro q hq
      split_ifs at hq with hr
      · simp_all
      · have : q = q0 - i.charge_watts / STEP_SCALE * PULSE_SPEED_MODIFIER := by simp_all
        linarith
  · by_cases hd : mode i = Mode.discharge
    · rw [tick_discharge s i hd]
      rcases hs : s.pos with _ | q0 <;> simp only [hs] <;> intro q hq <;>
        split_ifs at hq with hr <;> simp_all <;> linarith
    · have hi : mode i = Mode.idle := by
        rcases hm : mode i <;> simp_all
      rw [tick_idle s i hi]
      simpa using h

lemma foldl_pos_le : ∀ (l : List TickInput) (s : PulseState), (∀ j ∈ l, 0 ≤ j.p) →
    (∀ q, s.pos = some q → q ≤ 33) →
    ∀ q, (l.foldl (fun s i => (tick s i).1) s).pos = some q → q ≤ 33
  | [], _, _, hs => by simpa using hs
  | i :: l, s, hl, hs => by
      rw [List.foldl_cons]
      exact foldl_pos_le l _ (fun j hj => hl j (List.mem_cons_of_mem _ hj))
        (tick_pos_le s i (hl i (List.mem_cons_self _ _)) hs)

lemma run_pos_le (l : List TickInput) (hl : ∀ j ∈ l, 0 ≤ j.p) :
    ∀ q, (run l).pos = some q → q ≤ 33 := by
  unfold run
  exact foldl_pos_le l initState hl (by simp [initState])

lemma getD_map_range {α : Type} (n : ℕ) (g : ℕ → α) (d : α) (col : ℕ) (h : col < n) :
    ((List.range n).map g).getD col d = g col := by
  rw [List.getD_eq_getElem?_getD, List.getElem?_map, List.getElem?_range h]
  rfl

lemma cellAt_frame_none (p : ℚ) (f : ℝ) (col row : ℕ) (h9 : col < WIDTH) (h34 : row < HEIGHT) :
    cellAt (create_battery_frame p none f) col row = base_cell p col row := by
  unfold cellAt create_battery_frame
  rw [getD_map_range _ _ _ _ h9, getD_map_range _ _ _ _ h34]

lemma cellAt_frame_some (p : ℚ) (cv f : ℝ) (col row : ℕ) (h9 : col < WIDTH) (h34 : row < HEIGHT) :
    cellAt (create_battery_frame p (some cv) f) col row =
      if 2 ≤ col ∧ col ≤ 6 ∧ 2 ≤ row ∧ row ≤ 32 then
        pyroundR ((base_cell p col row : ℝ) * compute_multiplier (row : ℝ) (some cv) SIGMA MIN_M)
      else base_cell p col row := by
  unfold cellAt create_battery_frame
  rw [getD_map_range _ _ _ _ h9, getD_map_range _ _ _ _ h34]

lemma cellAt_frame_oob (p : ℚ) (c : Option ℝ) (f : ℝ) (col row : ℕ)
    (h : ¬(col < WIDTH ∧ row < HEIGHT)) :
    cellAt (create_battery_frame p c f) col row = 0 := by
  by_cases h9 : col < WIDTH
  · have h34 : HEIGHT ≤ row := by omega
    cases c <;>
      · unfold cellAt create_battery_frame
        rw [getD_map_range _ _ _ _ h9, List.getD_eq_getElem?_getD,
          List.getElem?_eq_none (by simpa using h34)]
        rfl
  · have h9' : WIDTH ≤ col := by omega
    have houter : (create_battery_frame p c f).getD col [] = [] := by
      cases c <;>
        · unfold create_battery_frame
          rw [List.getD_eq_getElem?_getD, List.getElem?_eq_none (by simpa using h9')]
          rfl
    unfold cellAt
    rw [houter]
    rfl

lemma clamp_branch_eq (v : ℤ) :
    (if v < 0 ∨ 255 < v then max 0 (min 255 v) else v) = max 0 (min 255 v) := by
  split_ifs with h
  · rfl
  · push_neg at h
    omega

lemma stage_foldl (vs : List ℤ) (acc : List ℤ × ℕ) :
    vs.foldl stage_step acc =
      (acc.1 ++ vs.map (fun v => max 0 (min 255 v)), acc.2 + vs.countP out_of_range) := by
  induction vs generalizing acc with
  | nil => simp
  | cons v vs ih =>
      rw [List.foldl_cons, ih]
      unfold stage_step
      by_cases h : v < 0 ∨ 255 < v
      · rw [if_pos h, List.countP_cons_of_pos _ _ (by simp [out_of_range, h])]
        simp only [Prod.mk.injEq, List.map_cons, List.append_assoc, List.singleton_append]
        exact ⟨by simp, by omega⟩
      · rw [if_neg h, List.countP_cons_of_neg _ _ (by simp [out_of_range, h])]
        have hv : max 0 (min 255 v) = v := by
          push_neg at h
          omega
        simp [hv]

lemma send_column_eq (id : ℤ) (vs : List ℤ) :
    send_column id vs =
      ([0x32, 0xAC, CMD_STAGE_COL, id] ++ vs.map (fun v => max 0 (min 255 v)),
       vs.countP out_of_range) := by
  unfold send_column
  rw [stage_foldl]
  simp

lemma create_battery_frame_col_length (p : ℚ) (c : Option ℝ) (f : ℝ) (col : ℕ)
    (h : col < WIDTH) :
    ((create_battery_frame p c f).getD col []).length = HEIGHT := by
  cases c <;>
    · unfold create_battery_frame
      rw [getD_map_range _ _ _ _ h]
      simp

lemma compute_multiplier_some (r c sigma m : ℝ) :
    compute_multiplier r (some c) sigma m = 1 - (1 - m) * Real.exp (-((r - c) / sigma) ^ 2) := rfl

lemma base_cell_row0 (p : ℚ) (col : ℕ) (h3 : 3 ≤ col) (h5 : col ≤ 5) :
    base_cell p col 0 = MAX_BRIGHT := by
  unfold base_cell
  rw [if_pos rfl, if_pos ⟨h3, h5⟩]

lemma base_cell_row1 (p : ℚ) (col : ℕ)
    (hc : col = 0 ∨ col = 1 ∨ col = 2 ∨ col = 6 ∨ col = 7 ∨ col = 8) :
    base_cell p col 1 = MAX_BRIGHT := by
  unfold base_cell
  rw [if_neg (by omega), if_pos rfl, if_pos hc]

lemma base_cell_row33 (p : ℚ) (col : ℕ) : base_cell p col 33 = MAX_BRIGHT := by
  unfold base_cell
  rw [if_neg (by omega), if_neg (by omega), if_pos rfl]

lemma base_cell_side (p : ℚ) (col row : ℕ) (h2 : 2 ≤ row) (h32 : row ≤ 32)
    (hc : col = 0 ∨ col = 8) :
    base_cell p col row = MAX_BRIGHT := by
  unfold base_cell
  rw [if_neg (by omega), if_neg (by omega), if_neg (by omega), if_pos hc]

/-! ## Claim theorems -/

/-- C6: `send_column` emits exactly the header `[0x32, 0xAC, 0x07, columnId]`
followed by exactly HEIGHT value bytes; every input value outside `[0, 255]` is
replaced by its clamp to `[0, 255]` (in-range values pass through unchanged,
so the payload is the pointwise clamp of the input) and one non-fatal
diagnostic is counted per out-of-range value; no emitted byte lies outside
`[0, 255]`.  The column id is a byte of the frame header, hence the
`0 ≤ id ≤ 255` hypothesis. -/
theorem C6_encoder_clamp (id : ℤ) (vs : List ℤ) (hid : 0 ≤ id ∧ id ≤ 255)
    (hlen : vs.length = HEIGHT) :
    (send_column id vs).1 =
      [0x32, 0xAC, CMD_STAGE_COL, id] ++ vs.map (fun v => max 0 (min 255 v)) ∧
    (send_column id vs).1.length = 4 + HEIGHT ∧
    (∀ b ∈ (send_column id vs).1, 0 ≤ b ∧ b ≤ 255) ∧
    (send_column id vs).2 = vs.countP out_of_range := by
  rw [send_column_eq]
  refine ⟨rfl, ?_, ?_, rfl⟩
  · simp [hlen] <;> omega
  · intro b hb
    simp only [List.mem_append, List.mem_map, List.mem_cons, List.not_mem_nil, or_false] at hb
    rcases hb with (rfl | rfl | rfl | rfl) | ⟨v, _, rfl⟩
    · norm_num
    · norm_num
    · norm_num [CMD_STAGE_COL]
    · omega
    · omega

/-- C6 witness: the spec's own example, `encodeColumn(1, [300, -5, 10, 0, ...])`. -/
theorem C6_encoder_clamp_witness :
    (0 ≤ (1 : ℤ) ∧ (1 : ℤ) ≤ 255) ∧
    ([(300 : ℤ), -5, 10] ++ List.replicate 31 0).length = HEIGHT ∧
    ((send_column 1 ([300, -5, 10] ++ List.replicate 31 0)).1 =
        [0x32, 0xAC, CMD_STAGE_COL, 1] ++
          ([(300 : ℤ), -5, 10] ++ List.replicate 31 0).map (fun v => max 0 (min 255 v)) ∧
      (send_column 1 ([300, -5, 10] ++ List.replicate 31 0)).1.length = 4 + HEIGHT ∧
      (∀ b ∈ (send_column 1 ([300, -5, 10] ++ List.replicate 31 0)).1, 0 ≤ b ∧ b ≤ 255) ∧
      (send_column 1 ([300, -5, 10] ++ List.replicate 31 0)).2 =
        ([(300 : ℤ), -5, 10] ++ List.replicate 31 0).countP out_of_range) :=
  ⟨by norm_num, by simp [HEIGHT], C6_encoder_clamp 1 _ (by norm_num) (by simp [HEIGHT])⟩

/-- C7: on every tick the emitted byte stream is exactly WIDTH = 9 stage-column
frames of 4 + 34 bytes each, with column ids 0..8 in increasing order, followed
by exactly one 3-byte flush frame, nothing interleaved and the flush last. -/
theorem C7_tick_wire_sequence (p : ℚ) (c : Option ℝ) (f : ℝ) :
    ∃ P : ℕ → List ℤ,
      emit_frame (create_battery_frame p c f) =
        ((List.range WIDTH).map
            (fun (i : ℕ) => [0x32, 0xAC, CMD_STAGE_COL, (i : ℤ)] ++ P i)).flatten
          ++ [0x32, 0xAC, CMD_FLUSH_COLS] ∧
      (∀ i, i < WIDTH → (P i).length = HEIGHT) ∧
      (∀ i, i < WIDTH → ∀ b ∈ P i, 0 ≤ b ∧ b ≤ 255) := by
  refine ⟨fun i => ((create_battery_frame p c f).getD i []).map (fun v => max 0 (min 255 v)),
    ?_, ?_, ?_⟩
  · have hmap : ∀ colId ∈ List.range WIDTH,
        (send_column (colId : ℤ) ((create_battery_frame p c f).getD colId [])).1 =
          [0x32, 0xAC, CMD_STAGE_COL, (colId : ℤ)] ++
            ((create_battery_frame p c f).getD colId []).map (fun v => max 0 (min 255 v)) := by
      intro colId _
      rw [send_column_eq]
    unfold emit_frame
    rw [List.map_congr_left hmap]
    rfl
  · intro i hi
    rw [List.length_map, create_battery_frame_col_length p c f i hi]
  · intro i hi b hb
    simp only [List.mem_map] at hb
    obtain ⟨v, _, rfl⟩ := hb
    omega

/-- C8: the attenuation multiplier is identically 1 when the center is absent,
equals `minMultiplier` at the center, always lies in `[minMultiplier, 1]` for a
defined center, and grows monotonically toward 1 as the distance from the
center grows. -/
theorem C8_multiplier_contract (r r1 r2 c sigma m : ℝ) (hm : m ≤ 1) :
    compute_multiplier r none sigma m = 1 ∧
    compute_multiplier c (some c) sigma m = m ∧
    m ≤ compute_multiplier r (some c) sigma m ∧
    compute_multiplier r (some c) sigma m ≤ 1 ∧
    (|r1 - c| ≤ |r2 - c| →
      compute_multiplier r1 (some c) sigma m ≤ compute_multiplier r2 (some c) sigma m) := by
  have key : ∀ x : ℝ, Real.exp (-((x - c) / sigma) ^ 2) ≤ 1 := fun x => by
    rw [← Real.exp_zero]
    exact Real.exp_le_exp.mpr (by nlinarith [sq_nonneg ((x - c) / sigma)])
  refine ⟨rfl, ?_, ?_, ?_, ?_⟩
  · rw [compute_multiplier_some, sub_self, zero_div]
    norm_num
  · rw [compute_multiplier_some]
    have h1 := key r
    have h2 := (Real.exp_pos (-((r - c) / sigma) ^ 2)).le
    nlinarith
  · rw [compute_multiplier_some]
    have h2 := (Real.exp_pos (-((r - c) / sigma) ^ 2)).le
    nlinarith
  · intro habs
    rw [compute_multiplier_some, compute_multiplier_some]
    have hsq : ((r1 - c) / sigma) ^ 2 ≤ ((r2 - c) / sigma) ^ 2 := by
      rw [div_pow, div_pow]
      have hsq2 : (r1 - c) ^ 2 ≤ (r2 - c) ^ 2 := by
        have h := pow_le_pow_left (abs_nonneg (r1 - c)) habs 2
        rwa [sq_abs, sq_abs] at h
      rcases (sq_nonneg sigma).eq_or_gt with h0 | h0
      · rw [h0]
        simp
      · exact (div_le_div_right h0).mpr hsq2
    have hexp : Real.exp (-((r2 - c) / sigma) ^ 2) ≤ Real.exp (-((r1 - c) / sigma) ^ 2) :=
      Real.exp_le_exp.mpr (by linarith)
    nlinarith

/-- C8 witness: the contract instantiated at the code's `SIGMA` and `MIN_M`,
center 5, rows 0 (range), 6 and 9 (monotonicity). -/
theorem C8_multiplier_contract_witness :
    MIN_M ≤ 1 ∧
    (compute_multiplier 0 none SIGMA MIN_M = 1 ∧
      compute_multiplier 5 (some 5) SIGMA MIN_M = MIN_M ∧
      MIN_M ≤ compute_multiplier 0 (some 5) SIGMA MIN_M ∧
      compute_multiplier 0 (some 5) SIGMA MIN_M ≤ 1 ∧
      (|(6 : ℝ) - 5| ≤ |(9 : ℝ) - 5| →
        compute_multiplier 6 (some 5) SIGMA MIN_M ≤ compute_multiplier 9 (some 5) SIGMA MIN_M)) :=
  ⟨by norm_num [MIN_M], C8_multiplier_contract 0 6 9 5 SIGMA MIN_M (by norm_num [MIN_M])⟩

/-- C9: the pulse overlay rewrites only cells of columns 2..6, rows 2..32;
every cell outside that region is identical to its pre-overlay value, and
every border cell (row 0 in columns 3..5, row 1 in columns 0,1,2,6,7,8,
rows 2..32 in columns 0 and 8, row 33 everywhere) equals `MAX_BRIGHT` with and
without the overlay. -/
theorem C9_overlay_only_fill_region (p : ℚ) (cv f : ℝ) (col row : ℕ) :
    (¬(2 ≤ col ∧ col ≤ 6 ∧ 2 ≤ row ∧ row ≤ 32) →
      cellAt (create_battery_frame p (some cv) f) col row =
        cellAt (create_battery_frame p none f) col row) ∧
    (((row = 0 ∧ 3 ≤ col ∧ col ≤ 5) ∨
      (row = 1 ∧ (col = 0 ∨ col = 1 ∨ col = 2 ∨ col = 6 ∨ col = 7 ∨ col = 8)) ∨
      (2 ≤ row ∧ row ≤ 32 ∧ (col = 0 ∨ col = 8)) ∨
      (row = 33 ∧ col < WIDTH)) →
      cellAt (create_battery_frame p (some cv) f) col row = MAX_BRIGHT ∧
      cellAt (create_battery_frame p none f) col row = MAX_BRIGHT) := by
  constructor
  · intro hout
    by_cases hin : col < WIDTH ∧ row < HEIGHT
    · rw [cellAt_frame_some p cv f col row hin.1 hin.2, if_neg hout,
        cellAt_frame_none p f col row hin.1 hin.2]
    · rw [cellAt_frame_oob p (some cv) f col row hin, cellAt_frame_oob p none f col row hin]
  · intro hb
    rcases hb with ⟨hr, h3, h5⟩ | ⟨hr, hc⟩ | ⟨h2, h32, hc⟩ | ⟨hr, hc⟩
    · subst hr
      have h9 : col < WIDTH := by
        show col < 9
        omega
      rw [cellAt_frame_some p cv f col 0 h9 (by decide), if_neg (by omega),
        cellAt_frame_none p f col 0 h9 (by decide), base_cell_row0 p col h3 h5]
      exact ⟨rfl, rfl⟩
    · subst hr
      have h9 : col < WIDTH := by
        show col < 9
        omega
      rw [cellAt_frame_some p cv f col 1 h9 (by decide), if_neg (by omega),
        cellAt_frame_none p f col 1 h9 (by decide), base_cell_row1 p col hc]
      exact ⟨rfl, rfl⟩
    · have h9 : col < WIDTH := by
        show col < 9
        omega
      have h34 : row < HEIGHT := by
        show row < 34
        omega
      have hreg : ¬(2 ≤ col ∧ col ≤ 6 ∧ 2 ≤ row ∧ row ≤ 32) := by omega
      rw [cellAt_frame_some p cv f col row h9 h34, if_neg hreg,
        cellAt_frame_none p f col row h9 h34, base_cell_side p col row h2 h32 hc]
      exact ⟨rfl, rfl⟩
    · subst hr
      rw [cellAt_frame_some p cv f col 33 hc (by decide), if_neg (by omega),
        cellAt_frame_none p f col 33 hc (by decide), base_cell_row33 p col]
      exact ⟨rfl, rfl⟩

/-- C10: the rendered grid does not depend on the fade argument — the
`pulse_fade` parameter of `create_battery_frame` is never read, so any two fade
values produce identical grids. -/
theorem C10_fade_not_read (p : ℚ) (c : Option ℝ) (f1 f2 : ℝ) :
    create_battery_frame p c f1 = create_battery_frame p c f2 := rfl

/-- C1: at percent 3 the partial row is defined (row 32, `partialFraction` 0.9)
and, with no pulse overlay, the code renders column 3 of the partial row as
`round(255 * (0.9 - 0.33) / 0.33) = 440`, whereas the claimed formula
`round(255 * clamp((0.9 - 0.33) / 0.33, 0, 1))` yields 255: the code is
missing the upper clamp for columns 3 and 5. -/
theorem C1_partial_row_col3_unclamped :
    full_rows 3 < 30 ∧
    partial_row 3 = some 32 ∧
    partial_fraction 3 = 9 / 10 ∧
    cellAt (create_battery_frame 3 none 0) 3 32 = 440 ∧
    pyround ((MAX_BRIGHT : ℚ) * max 0 (min 1 ((partial_fraction 3 - 33 / 100) / (33 / 100)))) =
      255 := by
  have hfr : full_rows 3 = 0 := by norm_num [full_rows, fill_level]
  refine ⟨by omega, by norm_num [partial_row, hfr], ?_, ?_, ?_⟩
  · norm_num [partial_fraction, fill_level, hfr]
  · rw [cellAt_frame_none 3 0 3 32 (by decide) (by decide)]
    norm_num [base_cell, full_rows, fill_level, partial_row, partial_fraction, fade_factor,
      pyround, MAX_BRIGHT]
  · norm_num [partial_fraction, fill_level, hfr, pyround, MAX_BRIGHT]

/-- C2: at percent 2.9 (with no pulse), the renderer produces the value 417 at
column 3, row 32 — outside `[0, 255]` — so the grid is not guaranteed to be in
range by construction. -/
theorem C2_cell_out_of_range :
    cellAt (create_battery_frame (29 / 10) none 0) 3 32 = 417 ∧ ¬((417 : ℤ) ≤ 255) := by
  constructor
  · rw [cellAt_frame_none (29 / 10) 0 3 32 (by decide) (by decide)]
    norm_num [base_cell, full_rows, fill_level, partial_row, partial_fraction, fade_factor,
      pyround, MAX_BRIGHT]
  · decide

/-- C3 counterexample: on an Idle tick with frozen position 10 and fade 1/2,
the updated fade is 49/100 > 0, yet the center passed to the renderer is
`none` — refuting that the center is `none` exactly when fade is 0. -/
theorem C3_idle_center_none_despite_fade :
    mode ⟨50, 0, 0⟩ = Mode.idle ∧
    ((tick ⟨some 10, 1 / 2⟩ ⟨50, 0, 0⟩).1).pos = some 10 ∧
    ((tick ⟨some 10, 1 / 2⟩ ⟨50, 0, 0⟩).1).fade = 49 / 100 ∧
    (tick ⟨some 10, 1 / 2⟩ ⟨50, 0, 0⟩).2 = none ∧
    ¬(((tick ⟨some 10, 1 / 2⟩ ⟨50, 0, 0⟩).2 = none) ↔
        ((tick ⟨some 10, 1 / 2⟩ ⟨50, 0, 0⟩).1).fade = 0) := by
  have hm : mode ⟨50, 0, 0⟩ = Mode.idle := by decide
  have ht := tick_idle ⟨some 10, 1 / 2⟩ ⟨50, 0, 0⟩ hm
  have hf : update_fade (1 / 2 : ℚ) 0 = 49 / 100 := by
    norm_num [update_fade, FADE_SPEED]
  have hc : (tick ⟨some 10, 1 / 2⟩ ⟨50, 0, 0⟩).2 = none := by rw [ht]
  have hfade : ((tick ⟨some 10, 1 / 2⟩ ⟨50, 0, 0⟩).1).fade = 49 / 100 := by
    rw [ht]
    exact hf
  refine ⟨hm, by rw [ht], hfade, hc, ?_⟩
  intro hiff
  have h0 : (49 : ℚ) / 100 = 0 := by
    rw [← hfade]
    exact hiff.mp hc
  norm_num at h0

/-- C3 amended: on every Idle tick the pulse position is left unchanged and
the center passed to the renderer is `none` unconditionally (regardless of the
fade value). -/
theorem C3_idle_frozen_and_center_none (s : PulseState) (i : TickInput)
    (h : mode i = Mode.idle) :
    ((tick s i).1).pos = s.pos ∧ (tick s i).2 = none := by
  rw [tick_idle s i h]
  exact ⟨rfl, rfl⟩

/-- C3 witness: an Idle tick at percent 20 with position 5 and fade 3/4. -/
theorem C3_idle_frozen_and_center_none_witness :
    mode ⟨20, 0, 0⟩ = Mode.idle ∧
    (((tick ⟨some 5, 3 / 4⟩ ⟨20, 0, 0⟩).1).pos = (⟨some 5, 3 / 4⟩ : PulseState).pos ∧
      (tick ⟨some 5, 3 / 4⟩ ⟨20, 0, 0⟩).2 = none) :=
  ⟨by decide, C3_idle_frozen_and_center_none ⟨some 5, 3 / 4⟩ ⟨20, 0, 0⟩ (by decide)⟩

/-- C4 counterexample: after two Discharging ticks (percent 50, 5 W) the
carried position is 17.1; on the first Charging tick (percent 50, 5 W) the
position becomes 17.1 - 0.1 = 17, not 33 — charging does not re-initialize the
position to 33 after a Discharging episode. -/
theorem C4_charge_after_discharge_not_33 :
    mode ⟨50, 5, 0⟩ = Mode.charge ∧
    (run [⟨50, 0, 5⟩, ⟨50, 0, 5⟩]).pos = some (171 / 10) ∧
    ((tick (run [⟨50, 0, 5⟩, ⟨50, 0, 5⟩]) ⟨50, 5, 0⟩).1).pos = some 17 ∧
    (17 : ℚ) ≠ 33 := by
  have hm : mode ⟨50, 5, 0⟩ = Mode.charge := by decide
  have hd : mode ⟨50, 0, 5⟩ = Mode.discharge := by decide
  have hrun : run [⟨50, 0, 5⟩, ⟨50, 0, 5⟩] = ⟨some (171 / 10), 2 / 100⟩ := by
    show (tick (tick initState ⟨50, 0, 5⟩).1 ⟨50, 0, 5⟩).1 = _
    rw [tick_discharge _ _ hd]
    norm_num [initState, update_fade, FADE_SPEED, STEP_SCALE, PULSE_SPEED_MODIFIER, top_fill,
      full_rows, fill_level]
    rw [tick_discharge _ _ hd]
    norm_num [update_fade, FADE_SPEED, STEP_SCALE, PULSE_SPEED_MODIFIER, top_fill, full_rows,
      fill_level]
  refine ⟨hm, by rw [hrun], ?_, by norm_num⟩
  rw [hrun, tick_charge _ _ hm]
  norm_num [update_fade, FADE_SPEED, STEP_SCALE, PULSE_SPEED_MODIFIER, top_fill, full_rows,
    fill_level]

/-- C4 amended: on a Charging tick the position is initialized to 33 only when
no position exists yet (process start); when a position exists (for example
after a Discharging episode) it is instead decreased by
`chargeRate / STEP_SCALE * PULSE_SPEED_MODIFIER` (with a reset to 33 only if
the result falls below `topFill`). -/
theorem C4_charge_init_only_from_none (s : PulseState) (i : TickInput)
    (h : mode i = Mode.charge) :
    (s.pos = none → ((tick s i).1).pos = some 33) ∧
    (∀ q, s.pos = some q →
      (top_fill i.p : ℚ) ≤ q - i.charge_watts / STEP_SCALE * PULSE_SPEED_MODIFIER →
      ((tick s i).1).pos =
        some (q - i.charge_watts / STEP_SCALE * PULSE_SPEED_MODIFIER)) := by
  rw [tick_charge s i h]
  constructor
  · intro hn
    simp only [hn]
    split_ifs <;> rfl
  · intro q hq hge
    simp only [hq]
    rw [if_neg (not_lt.mpr hge)]

/-- C4 witness: the very first Charging tick of a fresh process initializes the
position to 33. -/
theorem C4_charge_init_only_from_none_witness :
    mode ⟨50, 5, 0⟩ = Mode.charge ∧
    ((tick ⟨none, 0⟩ ⟨50, 5, 0⟩).1).pos = some 33 :=
  ⟨by decide, (C4_charge_init_only_from_none ⟨none, 0⟩ ⟨50, 5, 0⟩ (by decide)).1 rfl⟩

/-- C5: after a Charging-mode pulse update from any reachable state (any tick
history with nonnegative percentages), the position lies in
`[topFill, 33]`; and whenever the decrement would land below `topFill`, the
position is reset to 33. -/
theorem C5_charging_pos_within_bounds (l : List TickInput) (i : TickInput)
    (hl : ∀ j ∈ l, 0 ≤ j.p) (hp : 0 ≤ i.p) (hm : mode i = Mode.charge) :
    (∃ q, ((tick (run l) i).1).pos = some q ∧ (top_fill i.p : ℚ) ≤ q ∧ q ≤ 33) ∧
    (∀ q, (run l).pos = some q →
      q - i.charge_watts / STEP_SCALE * PULSE_SPEED_MODIFIER < (top_fill i.p : ℚ) →
      ((tick (run l) i).1).pos = some 33) := by
  have htf : (top_fill i.p : ℚ) ≤ 32 := by exact_mod_cast top_fill_le_32 hp
  have hinv := run_pos_le l hl
  have hcw : 0 < i.charge_watts := mode_charge_pos hm
  have hstep : 0 < i.charge_watts / STEP_SCALE * PULSE_SPEED_MODIFIER := by
    have h1 : 0 < i.charge_watts / STEP_SCALE := div_pos hcw (by norm_num [STEP_SCALE])
    exact mul_pos h1 (by norm_num [PULSE_SPEED_MODIFIER])
  rw [tick_charge _ _ hm]
  constructor
  · rcases hs : (run l).pos with _ | q0
    · refine ⟨33, ?_, by linarith, le_refl 33⟩
      simp only [hs]
      rw [if_neg (by linarith)]
    · have hq0 : q0 ≤ 33 := hinv q0 hs
      by_cases hr : q0 - i.charge_watts / STEP_SCALE * PULSE_SPEED_MODIFIER <
          (top_fill i.p : ℚ)
      · refine ⟨33, ?_, by linarith, le_refl 33⟩
        simp only [hs]
        rw [if_pos hr]
      · refine ⟨q0 - i.charge_watts / STEP_SCALE * PULSE_SPEED_MODIFIER, ?_, by linarith,
          by linarith⟩
        simp only [hs]
        rw [if_neg hr]
  · intro q hq hlt
    simp only [hq]
    rw [if_pos hlt]

/-- C5 witness: an empty history followed by a Charging tick at percent 50. -/
theorem C5_charging_pos_within_bounds_witness :
    (∀ j ∈ ([] : List TickInput), 0 ≤ j.p) ∧
    (0 : ℚ) ≤ (⟨50, 5, 0⟩ : TickInput).p ∧
    mode ⟨50, 5, 0⟩ = Mode.charge ∧
    ((∃ q, ((tick (run []) ⟨50, 5, 0⟩).1).pos = some q ∧
        (top_fill (⟨50, 5, 0⟩ : TickInput).p : ℚ) ≤ q ∧ q ≤ 33) ∧
      (∀ q, (run []).pos = some q →
        q - (⟨50, 5, 0⟩ : TickInput).charge_watts / STEP_SCALE * PULSE_SPEED_MODIFIER <
          (top_fill (⟨50, 5, 0⟩ : TickInput).p : ℚ) →
        ((tick (run []) ⟨50, 5, 0⟩).1).pos = some 33)) :=
  ⟨by simp, by decide, by decide,
    C5_charging_pos_within_bounds [] ⟨50, 5, 0⟩ (by simp) (by decide) (by decide)⟩

end Batt3
